import Mathlib

/-!
Verification of the Connect Four game engine (`src/town/games/ConnectFourGame.ts`).

The TypeScript class `ConnectFourGame` is shallowly embedded below.  Machine
state is the `ConnectFourGameState` record together with the private mutable
board (`_board`), the predecessor reference (`_lastGame`) and the occupant
list (`_players`) inherited from the generic `Game` base class.  Each public
operation (`join`, `startGame`, `applyMove`, `leave`) is embedded as a pure
function returning the (possibly mutated) state together with the error that
the source would throw, if any.  Since in the source every `throw` happens
before any mutation, an error result always carries the unmodified state; the
embedding keeps the source's check/mutate order so that this is a theorem,
not a modelling assumption.
-/

namespace ConnectFour

/-- The two disc colors, `'Red' | 'Yellow'` in the source. -/
inductive Piece where
  | Red : Piece
  | Yellow : Piece
deriving DecidableEq, Fintype

/-- A board cell: `'_'`, `'R'` or `'Y'` in the source's `string[][]` board. -/
inductive Cell where
  | empty : Cell
  | R : Cell
  | Y : Cell
deriving DecidableEq, Fintype

/-- Game status strings of `ConnectFourGameState`. -/
inductive Status where
  | waitingForPlayers : Status
  | waitingToStart : Status
  | inProgress : Status
  | over : Status
deriving DecidableEq

/-- The typed errors of `InvalidParametersError` thrown by the engine. -/
inductive Err where
  | playerAlreadyInGame : Err
  | gameFull : Err
  | playerNotInGame : Err
  | gameNotStartable : Err
  | moveNotYourTurn : Err
  | boardPositionNotValid : Err
  | gameNotInProgress : Err
deriving DecidableEq

/-- Player identities are opaque, equality-comparable strings. -/
abbrev PlayerID := String

/-- `ConnectFourMove`: `{ gamePiece, col, row }`.  `col` and `row` are JS
numbers at runtime, so they are embedded as integers and bounds-checked by
`checkValidBoardPosition` exactly as in the source. -/
structure ConnectFourMove where
  gamePiece : Piece
  col : Int
  row : Int
deriving DecidableEq

/-- `GameMove<ConnectFourMove>`: the submitted move with the submitting
player's identity (the `gameID` field is never read by the engine). -/
structure GameMove where
  playerID : PlayerID
  move : ConnectFourMove
deriving DecidableEq

/-- `ConnectFourGameState`: the externally visible state of one round.  The
optional ready flags are embedded as `Bool` with default `false`, matching JS
truthiness of `undefined`. -/
structure GameState where
  moves : List ConnectFourMove
  status : Status
  firstPlayer : Piece
  red : Option PlayerID := none
  yellow : Option PlayerID := none
  redReady : Bool := false
  yellowReady : Bool := false
  winner : Option PlayerID := none
deriving DecidableEq

/-- The private `_board`: 6 rows (0 = top) by 7 columns. -/
abbrev Board := Fin 6 → Fin 7 → Cell

/-- The all-`'_'` board the constructor builds. -/
def emptyBoard : Board := fun _ _ => Cell.empty

/-- `board[r]?.[c]` style access: `none` models JS `undefined` for any
out-of-range index (including negative ones). -/
def getCell (b : Board) (r c : Int) : Option Cell :=
  if h : 0 ≤ r ∧ r < 6 ∧ 0 ≤ c ∧ c < 7 then
    some (b ⟨r.toNat, by omega⟩ ⟨c.toNat, by omega⟩)
  else none

/-- `this._board[r][c] = v`.  The source only ever writes validated in-range
coordinates; an out-of-range write is a no-op here (no cell matches). -/
def setCell (b : Board) (r c : Int) (v : Cell) : Board :=
  fun i j => if (i.val : Int) = r ∧ (j.val : Int) = c then v else b i j

/-- `gamePiece === 'Red' ? 'R' : 'Y'` (line 355). -/
def pieceCell : Piece → Cell
  | Piece.Red => Cell.R
  | Piece.Yellow => Cell.Y

/-- A `ConnectFourGame` object: its `state`, the private `_board`, the
`_lastGame` predecessor reference (only the predecessor's `state` is ever
read, so a state snapshot suffices), and the `_players` occupant list.
`_players` belongs to the generic `Game` base class, which is not part of
this repository's sources; it is modelled from the spec (occupant tracking:
players that joined and have not left). -/
structure GameS where
  state : GameState
  board : Board
  lastGame : Option GameState
  players : List PlayerID

/-- The state built by the constructor (lines 38-45). -/
def initialState : GameState :=
  { moves := [], status := Status.waitingForPlayers, firstPlayer := Piece.Red }

/-- `new ConnectFourGame(priorGame?)`. -/
def newGame (priorGame : Option GameState) : GameS :=
  { state := initialState, board := emptyBoard, lastGame := priorGame, players := [] }

/-- `_createNewGame` (lines 257-260): constructs `new ConnectFourGame()` with
no `priorGame` argument, ignoring the current game entirely. -/
def createNewGame (_this : GameS) : GameS := newGame none

/-- `_getOtherPlayerColor` (lines 494-496). -/
def getOtherPlayerColor : Piece → Piece
  | Piece.Red => Piece.Yellow
  | Piece.Yellow => Piece.Red

/-- `_isTurn` (lines 470-486). -/
def isTurn (s : GameState) (m : GameMove) : Bool :=
  let currentPlayer :=
    if s.moves.length % 2 = 0 then s.firstPlayer else getOtherPlayerColor s.firstPlayer
  if currentPlayer = Piece.Red ∧ s.red = some m.playerID then true
  else if currentPlayer = Piece.Yellow ∧ s.yellow = some m.playerID then true
  else false

/-- `_checkValidBoardPosition` (lines 327-343). -/
def checkValidBoardPosition (b : Board) (m : GameMove) : Bool :=
  let row := m.move.row
  let col := m.move.col
  if col < 0 ∨ 7 ≤ col ∨ row < 0 ∨ 6 ≤ row then false
  else if getCell b row col ≠ some Cell.empty then false
  else if row ≠ 5 ∧ getCell b (row + 1) col = some Cell.empty then false
  else true

/-- `_checkValidMove` (lines 300-319): performs the four checks in source
order and throws the first failure; it never mutates. -/
def checkValidMove (g : GameS) (m : GameMove) : Option Err :=
  if g.state.status ≠ Status.inProgress then some Err.gameNotInProgress
  else if g.state.red ≠ some m.playerID ∧ g.state.yellow ≠ some m.playerID then
    some Err.playerNotInGame
  else if g.state.status = Status.inProgress ∧ g.state.red.isSome ∧ ¬ isTurn g.state m then
    some Err.moveNotYourTurn
  else if g.state.status = Status.inProgress ∧ g.state.yellow.isSome ∧ ¬ isTurn g.state m then
    some Err.moveNotYourTurn
  else if ¬ isTurn g.state m then some Err.moveNotYourTurn
  else if ¬ checkValidBoardPosition g.board m then some Err.boardPositionNotValid
  else none

/-- `_updateBoard` (lines 350-357): writes every move of the given log onto
the current board in order. -/
def updateBoard (b : Board) (moves : List ConnectFourMove) : Board :=
  moves.foldl (fun acc mv => setCell acc mv.row mv.col (pieceCell mv.gamePiece)) b

/-- The inner counter scan of the horizontal/vertical win loops
(lines 367-381 / 383-397): `prev` is the previously inspected cell, `counter`
the current run length; the loop reports a win as soon as the counter
reaches 4. -/
def scanRun : List Cell → Cell → Nat → Bool
  | [], _, _ => false
  | c :: rest, prev, counter =>
    let counter2 := if c ≠ Cell.empty ∧ c = prev then counter + 1 else 1
    if counter2 = 4 then true else scanRun rest c counter2

/-- Horizontal win loop of `_determineWinner` (lines 366-381). -/
def hasHorizontalWin (b : Board) : Bool :=
  (List.finRange 6).any fun r =>
    scanRun [b r 1, b r 2, b r 3, b r 4, b r 5, b r 6] (b r 0) 1

/-- Vertical win loop of `_determineWinner` (lines 382-397). -/
def hasVerticalWin (b : Board) : Bool :=
  (List.finRange 7).any fun c =>
    scanRun [b 1 c, b 2 c, b 3 c, b 4 c, b 5 c] (b 0 c) 1

/-- Top-left to bottom-right diagonal loop (lines 399-416), with the
optional-chaining accesses `board[row + k]?.[col + k]`. -/
def hasDiagTLBR (b : Board) : Bool :=
  (List.finRange 6).any fun r => (List.finRange 7).any fun c =>
    decide (b r c ≠ Cell.empty ∧
      getCell b (r.val : Int) (c.val : Int) = some (b r c) ∧
      getCell b ((r.val : Int) + 1) ((c.val : Int) + 1) = some (b r c) ∧
      getCell b ((r.val : Int) + 2) ((c.val : Int) + 2) = some (b r c) ∧
      getCell b ((r.val : Int) + 3) ((c.val : Int) + 3) = some (b r c))

/-- Bottom-left to top-right diagonal loop (lines 418-435). -/
def hasDiagBLTR (b : Board) : Bool :=
  (List.finRange 6).any fun r => (List.finRange 7).any fun c =>
    decide (b r c ≠ Cell.empty ∧
      getCell b (r.val : Int) (c.val : Int) = some (b r c) ∧
      getCell b ((r.val : Int) - 1) ((c.val : Int) + 1) = some (b r c) ∧
      getCell b ((r.val : Int) - 2) ((c.val : Int) + 2) = some (b r c) ∧
      getCell b ((r.val : Int) - 3) ((c.val : Int) + 3) = some (b r c))

/-- Cell scan of the tie loop (lines 440-451): it fires as soon as some cell
is non-empty (and the move-log length is 42). -/
def hasNonEmptyCell (b : Board) : Bool :=
  (List.finRange 6).any fun r => (List.finRange 7).any fun c =>
    decide (b r c ≠ Cell.empty)

/-- `_setWinnerAndGameOver` (lines 459-462). -/
def setWinnerAndGameOver (s : GameState) (mv : ConnectFourMove) : GameState :=
  { s with winner := if mv.gamePiece = Piece.Red then s.red else s.yellow,
           status := Status.over }

/-- `_determineWinner` (lines 365-452): the four win scans in priority order,
then the tie check guarded by `moves.length === 42`. -/
def determineWinner (s : GameState) (b : Board) (mv : ConnectFourMove) : GameState :=
  if hasHorizontalWin b then
    { s with status := Status.over,
             winner := if mv.gamePiece = Piece.Red then s.red else s.yellow }
  else if hasVerticalWin b then
    { s with status := Status.over,
             winner := if mv.gamePiece = Piece.Red then s.red else s.yellow }
  else if hasDiagTLBR b then setWinnerAndGameOver s mv
  else if hasDiagBLTR b then setWinnerAndGameOver s mv
  else if hasNonEmptyCell b = true ∧ s.moves.length = 42 then
    { s with status := Status.over, winner := none }
  else s

/-- `applyMove` (lines 279-289): validate, append the move, replay the log
onto the board, then run the win/tie detector. -/
def applyMove (g : GameS) (m : GameMove) : Option Err × GameS :=
  match checkValidMove g m with
  | some e => (some e, g)
  | none =>
    let s1 := { g.state with moves := g.state.moves ++ [m.move] }
    let b1 := updateBoard g.board s1.moves
    (none, { g with state := determineWinner s1 b1 m.move, board := b1 })

/-- Seat-assignment block of `_join` (lines 124-153), branching on the
predecessor round exactly as the source does. -/
def joinAssign (s : GameState) (lastGame : Option GameState) (pid : PlayerID) : GameState :=
  match lastGame with
  | some lg =>
    if s.red = none ∧ lg.red = some pid then { s with red := some pid }
    else if s.yellow = none ∧ lg.yellow = some pid then { s with yellow := some pid }
    else if s.red ≠ none ∧ lg.red = some pid then { s with yellow := some pid }
    else if s.yellow ≠ none ∧ lg.yellow = some pid then { s with red := some pid }
    else if s.red = none then { s with red := some pid }
    else { s with yellow := some pid }
  | none =>
    if s.red = none then { s with red := some pid }
    else { s with yellow := some pid }

/-- Status advance of `_join` (lines 155-157). -/
def joinFinish (s : GameState) : GameState :=
  if s.red.isSome ∧ s.yellow.isSome then { s with status := Status.waitingToStart }
  else s

/-- `_join` (lines 113-158) composed with the `Game.join` wrapper.  The
wrapper (base class, not part of these sources) is modelled from the spec:
it records the occupant after a successful `_join`. -/
def join (g : GameS) (pid : PlayerID) : Option Err × GameS :=
  if g.state.red = some pid ∨ g.state.yellow = some pid then
    (some Err.playerAlreadyInGame, g)
  else if g.state.red.isSome ∧ g.state.yellow.isSome ∧ g.state.red ≠ g.state.yellow then
    (some Err.gameFull, g)
  else
    (none, { g with state := joinFinish (joinAssign g.state g.lastGame pid),
                    players := g.players ++ [pid] })

/-- First-mover block of `startGame` (lines 73-88). -/
def startFirstMover (s : GameState) (lastGame : Option GameState)
    (players : List PlayerID) (pid : PlayerID) : GameState :=
  if s.red = some pid ∨ s.yellow = some pid then
    match lastGame with
    | some lg =>
      if players.any fun p => decide (lg.red = some p ∨ lg.yellow = some p) then
        if lg.firstPlayer = Piece.Red then { s with firstPlayer := Piece.Yellow }
        else { s with firstPlayer := Piece.Red }
      else s
    | none => { s with firstPlayer := Piece.Red }
  else s

/-- Ready-flag block of `startGame` (lines 90-94). -/
def startReady (s : GameState) (pid : PlayerID) : GameState :=
  if s.red = some pid then { s with redReady := true }
  else if s.yellow = some pid then { s with yellowReady := true }
  else s

/-- Progress advance of `startGame` (lines 96-98). -/
def startProgress (s : GameState) : GameState :=
  if s.yellowReady ∧ s.redReady then { s with status := Status.inProgress } else s

/-- `startGame` (lines 64-99). -/
def startGame (g : GameS) (pid : PlayerID) : Option Err × GameS :=
  if g.state.status ≠ Status.waitingToStart then (some Err.gameNotStartable, g)
  else if g.state.red ≠ some pid ∧ g.state.yellow ≠ some pid then
    (some Err.playerNotInGame, g)
  else
    let s3 := startProgress (startReady (startFirstMover g.state g.lastGame g.players pid) pid)
    (none, { g with state := s3 })

/-- Forfeit block of `_leave` (lines 181-187). -/
def leaveForfeit (s : GameState) (pid : PlayerID) : GameState :=
  if s.red = some pid ∧ s.status = Status.inProgress then
    { s with winner := s.yellow, status := Status.over }
  else if s.yellow = some pid ∧ s.status = Status.inProgress then
    { s with winner := s.red, status := Status.over }
  else s

/-- Seat-clearing block for `WAITING_TO_START` (lines 202-214). -/
def leaveClearWTS (s : GameState) (pid : PlayerID) : GameState :=
  if s.red = some pid then
    if s.status = Status.waitingToStart then
      { s with red := none, redReady := false, status := Status.waitingForPlayers }
    else s
  else if s.yellow = some pid then
    if s.status = Status.waitingToStart then
      { s with yellow := none, yellowReady := false, status := Status.waitingForPlayers }
    else s
  else s

/-- First-mover branch of `_leave` (lines 220-228), kept with its nested
redundant guards. -/
def leaveFirstPlayerBranch (s : GameState) (pid : PlayerID) : GameState :=
  if s.red = some pid ∧ s.status = Status.waitingToStart then
    if s.status = Status.waitingToStart then
      if s.red.isSome ∧ s.yellow.isSome then
        if s.yellow = some pid then { s with firstPlayer := Piece.Red } else s
      else s
    else s
  else s

/-- Seat-clearing block for `WAITING_FOR_PLAYERS` (lines 233-245). -/
def leaveClearWFP (s : GameState) (pid : PlayerID) : GameState :=
  if s.red = some pid then
    if s.status = Status.waitingForPlayers then
      { s with red := none, redReady := false, status := Status.waitingForPlayers }
    else s
  else if s.yellow = some pid then
    if s.status = Status.waitingForPlayers then
      { s with yellow := none, yellowReady := false, status := Status.waitingForPlayers }
    else s
  else s

/-- Result of a `leave` call: the thrown error if any, the game afterwards,
and the successor game constructed by `_createNewGame` at line 248 when that
line is reached (`none` when it is not). -/
structure LeaveOutcome where
  err : Option Err
  game : GameS
  created : Option GameS

/-- `_leave` (lines 173-250) composed with the `Game.leave` wrapper.  The
wrapper (base class, not part of these sources) is modelled from the spec:
after `_leave` returns normally - including through the early return at
lines 193-195 - it drops the occupant from the occupant list.  Line 247
(`if status === OVER, _createNewGame()`) is embedded faithfully; the
constructed game is reported in `created`. -/
def leave (g : GameS) (pid : PlayerID) : LeaveOutcome :=
  if g.state.red ≠ some pid ∧ g.state.yellow ≠ some pid then
    ⟨some Err.playerNotInGame, g, none⟩
  else
    let s1 := leaveForfeit g.state pid
    if (s1.red = some pid ∨ s1.yellow = some pid) ∧ s1.status = Status.over then
      ⟨none, { g with state := s1, players := g.players.filter (fun q => q != pid) }, none⟩
    else
      let s4 := leaveClearWFP (leaveFirstPlayerBranch (leaveClearWTS s1 pid) pid) pid
      let g4 : GameS := { g with state := s4,
                                 players := g.players.filter (fun q => q != pid) }
      if s4.status = Status.over then ⟨none, g4, some (createNewGame g4)⟩
      else ⟨none, g4, none⟩

/-- The seat currently holding a color (spec 4.4: "the seat matching the
active color"). -/
def seatOf (s : GameState) : Piece → Option PlayerID
  | Piece.Red => s.red
  | Piece.Yellow => s.yellow

/-- Spec 4.4: the active color for move number `n` (`n` = move-log length)
is the first-mover if `n` is even, otherwise the other color. -/
def activeColor (s : GameState) : Piece :=
  if s.moves.length % 2 = 0 then s.firstPlayer else getOtherPlayerColor s.firstPlayer

/-- The seat currently holding the given (non-empty) cell color. -/
def cellSeat (s : GameState) : Cell → Option PlayerID
  | Cell.R => s.red
  | Cell.Y => s.yellow
  | Cell.empty => none

/-- Spec 4.2 condition 1: a horizontal run of four cells of value `v`
(a run of four or more contains such a window). -/
def HRunOf (b : Board) (v : Cell) : Prop :=
  ∃ (r : Fin 6) (c : Fin 4), ∀ k : Fin 4,
    getCell b (r.val : Int) ((c.val + k.val : Nat) : Int) = some v

/-- Spec 4.2 condition 2: a vertical run of four cells of value `v`. -/
def VRunOf (b : Board) (v : Cell) : Prop :=
  ∃ (r : Fin 3) (c : Fin 7), ∀ k : Fin 4,
    getCell b ((r.val + k.val : Nat) : Int) (c.val : Int) = some v

/-- Spec 4.2 condition 3: a top-left to bottom-right diagonal run of four. -/
def D1RunOf (b : Board) (v : Cell) : Prop :=
  ∃ (r : Fin 3) (c : Fin 4), ∀ k : Fin 4,
    getCell b ((r.val + k.val : Nat) : Int) ((c.val + k.val : Nat) : Int) = some v

/-- Spec 4.2 condition 4: a bottom-left to top-right diagonal run of four
(the window is addressed from its topmost row `r`). -/
def D2RunOf (b : Board) (v : Cell) : Prop :=
  ∃ (r : Fin 3) (c : Fin 4), ∀ k : Fin 4,
    getCell b ((r.val + 3 - k.val : Nat) : Int) ((c.val + k.val : Nat) : Int) = some v

/-- A run of four (or more) of value `v` in any of the four directions. -/
def RunOfCell (b : Board) (v : Cell) : Prop :=
  HRunOf b v ∨ VRunOf b v ∨ D1RunOf b v ∨ D2RunOf b v

instance (b : Board) (v : Cell) : Decidable (HRunOf b v) := by
  unfold HRunOf
  infer_instance

instance (b : Board) (v : Cell) : Decidable (VRunOf b v) := by
  unfold VRunOf
  infer_instance

instance (b : Board) (v : Cell) : Decidable (D1RunOf b v) := by
  unfold D1RunOf
  infer_instance

instance (b : Board) (v : Cell) : Decidable (D2RunOf b v) := by
  unfold D2RunOf
  infer_instance

instance (b : Board) (v : Cell) : Decidable (RunOfCell b v) := by
  unfold RunOfCell
  infer_instance

/-- The spec's gravity invariant (section 3): an occupied cell at row `r`
has an occupied cell directly beneath it (rows grow downward). -/
def Gravity (b : Board) : Prop :=
  ∀ (r : Fin 6) (c : Fin 7) (h : r.val + 1 < 6),
    b r c ≠ Cell.empty → b ⟨r.val + 1, h⟩ c ≠ Cell.empty

/-- Spec 4.1 `placeable`: column in `[0,6]`, row in `[0,5]`, target cell
empty, and either the floor row or a non-empty cell directly below. -/
def placeableSpec (b : Board) (mv : ConnectFourMove) : Prop :=
  0 ≤ mv.col ∧ mv.col ≤ 6 ∧ 0 ≤ mv.row ∧ mv.row ≤ 5 ∧
  getCell b mv.row mv.col = some Cell.empty ∧
  (mv.row = 5 ∨ ∃ v, getCell b (mv.row + 1) mv.col = some v ∧ v ≠ Cell.empty)

/-- The value written last to cell `(r, c)` by a move list, if any. -/
def lastWrite : List ConnectFourMove → Int → Int → Option Cell
  | [], _, _ => none
  | mv :: rest, r, c =>
    match lastWrite rest r c with
    | some v => some v
    | none => if mv.row = r ∧ mv.col = c then some (pieceCell mv.gamePiece) else none

/-- Game objects reachable from a freshly constructed game (with or without
a predecessor) through any sequence of the four engine operations. -/
inductive Reachable : GameS → Prop where
  | init : ∀ prior, Reachable (newGame prior)
  | joinStep : ∀ g pid, Reachable g → Reachable (join g pid).2
  | startStep : ∀ g pid, Reachable g → Reachable (startGame g pid).2
  | moveStep : ∀ g m, Reachable g → Reachable (applyMove g m).2
  | leaveStep : ∀ g pid, Reachable g → Reachable (leave g pid).game

/-- Fixture: an in-progress round, `p1` red and `p2` yellow, empty board. -/
def liveGame : GameS :=
  { state := { moves := [], status := Status.inProgress, firstPlayer := Piece.Red,
               red := some "p1", yellow := some "p2", redReady := true,
               yellowReady := true, winner := none },
    board := emptyBoard, lastGame := none, players := ["p1", "p2"] }

/-- Fixture: a finished predecessor round with `p1` red and `p2` yellow. -/
def predState : GameState :=
  { moves := [], status := Status.over, firstPlayer := Piece.Red,
    red := some "p1", yellow := some "p2" }

/-- Fixture: a successor round of `predState` driven through public
operations only: carried-over `p1` joins with newcomer `q`; `p1` calls
start (the first-mover flips to Yellow while the round stays
WaitingToStart); `p1` leaves (regress to WaitingForPlayers); newcomer `r`
joins (back to WaitingToStart).  The seats now hold `r` and `q`, neither of
whom held a seat in the predecessor, and the first-mover is still Yellow. -/
def driftGame : GameS :=
  (join (leave (startGame (join (join (newGame (some predState)) "p1").2 "q").2
    "p1").2 "p1").game "r").2

/-- Fixture: a board whose bottom row holds four red discs in columns 0-3. -/
def runBoard : Board := fun r c => if r.val = 5 ∧ c.val < 4 then Cell.R else Cell.empty

/-- Fixture: a round state whose move log has the full length 42. -/
def fullState : GameState :=
  { moves := List.replicate 42 ⟨Piece.Red, 0, 5⟩, status := Status.inProgress,
    firstPlayer := Piece.Red, red := some "p1", yellow := some "p2" }

theorem getCell_eq (b : Board) (r c : Int) (hr0 : 0 ≤ r) (hr : r < 6)
    (hc0 : 0 ≤ c) (hc : c < 7) :
    getCell b r c = some (b ⟨r.toNat, by omega⟩ ⟨c.toNat, by omega⟩) := by
  unfold getCell
  rw [dif_pos ⟨hr0, hr, hc0, hc⟩]

theorem getCell_natLt (b : Board) (r c : ℕ) (hr : r < 6) (hc : c < 7) :
    getCell b (r : Int) (c : Int) = some (b ⟨r, hr⟩ ⟨c, hc⟩) := by
  rw [getCell_eq b r c (Int.natCast_nonneg r) (by exact_mod_cast hr)
    (Int.natCast_nonneg c) (by exact_mod_cast hc)]
  congr 1

theorem getCell_some_bounds (b : Board) (r c : Int) (v : Cell)
    (h : getCell b r c = some v) : 0 ≤ r ∧ r < 6 ∧ 0 ≤ c ∧ c < 7 := by
  by_contra hb
  unfold getCell at h
  rw [dif_neg hb] at h
  exact Option.noConfusion h

/-- C4: the turn check accepts a move exactly when the submitting identity
occupies the seat of the active color (first-mover on even move counts, the
other color on odd ones), regardless of which seats are occupied. -/
theorem c4_isTurn_iff_active_seat (s : GameState) (m : GameMove) :
    isTurn s m = true ↔ seatOf s (activeColor s) = some m.playerID := by
  by_cases hl : s.moves.length % 2 = 0 <;>
    cases hf : s.firstPlayer <;>
    simp [isTurn, activeColor, hl, hf, getOtherPlayerColor, seatOf]

theorem leaveForfeit_firstPlayer (s : GameState) (pid : PlayerID) :
    (leaveForfeit s pid).firstPlayer = s.firstPlayer := by
  unfold leaveForfeit
  repeat' split
  all_goals rfl

theorem leaveClearWTS_firstPlayer (s : GameState) (pid : PlayerID) :
    (leaveClearWTS s pid).firstPlayer = s.firstPlayer := by
  unfold leaveClearWTS
  repeat' split
  all_goals rfl

theorem leaveClearWFP_firstPlayer (s : GameState) (pid : PlayerID) :
    (leaveClearWFP s pid).firstPlayer = s.firstPlayer := by
  unfold leaveClearWFP
  repeat' split
  all_goals rfl

theorem leaveClearWTS_not_red_wts (s : GameState) (pid : PlayerID) :
    (leaveClearWTS s pid).red = some pid →
    (leaveClearWTS s pid).status ≠ Status.waitingToStart := by
  unfold leaveClearWTS
  repeat' split
  all_goals simp_all

theorem leaveFirstPlayerBranch_of_not (s : GameState) (pid : PlayerID)
    (h : s.red = some pid → s.status ≠ Status.waitingToStart) :
    leaveFirstPlayerBranch s pid = s := by
  unfold leaveFirstPlayerBranch
  rw [if_neg]
  rintro ⟨h1, h2⟩
  exact h h1 h2

/-- C9: a `leave` call never changes the round's first-mover: the
first-mover branch at lines 220-228 is unreachable (its guard requires a
red-seated leaver still seated with status `WAITING_TO_START` after the
clearing block at lines 202-214 has already run). -/
theorem c9_leave_preserves_firstPlayer (g : GameS) (pid : PlayerID) :
    (leave g pid).game.state.firstPlayer = g.state.firstPlayer := by
  simp only [leave]
  split
  · rfl
  · split
    · exact leaveForfeit_firstPlayer g.state pid
    · rw [leaveFirstPlayerBranch_of_not _ _
        (leaveClearWTS_not_red_wts (leaveForfeit g.state pid) pid)]
      split <;>
        simp [leaveClearWFP_firstPlayer, leaveClearWTS_firstPlayer,
          leaveForfeit_firstPlayer]

/-- C2: each of the four operations either succeeds or reports a typed
error, and on an error the returned state is exactly the pre-call state
(every check in the source precedes every mutation). -/
theorem c2_error_leaves_state_unchanged (g : GameS) (pid : PlayerID) (m : GameMove) :
    ((join g pid).1.isSome → (join g pid).2 = g) ∧
    ((startGame g pid).1.isSome → (startGame g pid).2 = g) ∧
    ((applyMove g m).1.isSome → (applyMove g m).2 = g) ∧
    ((leave g pid).err.isSome → (leave g pid).game = g) := by
  refine ⟨?_, ?_, ?_, ?_⟩
  · simp only [join]
    split
    · simp
    · split
      · simp
      · simp
  · simp only [startGame]
    split
    · simp
    · split
      · simp
      · simp
  · simp only [applyMove]
    split
    · simp
    · simp
  · simp only [leave]
    split
    · simp
    · split
      · simp
      · split
        · simp
        · simp

theorem c2_witness : (startGame (newGame none) "p1").2 = newGame none :=
  (c2_error_leaves_state_unchanged (newGame none) "p1"
    ⟨"p1", ⟨Piece.Red, 0, 5⟩⟩).2.1 (by decide)

theorem pieceCell_ne_empty (p : Piece) : pieceCell p ≠ Cell.empty := by
  cases p <;> simp [pieceCell]

theorem updateBoard_cons (b : Board) (mv : ConnectFourMove) (l : List ConnectFourMove) :
    updateBoard b (mv :: l) =
      updateBoard (setCell b mv.row mv.col (pieceCell mv.gamePiece)) l := rfl

theorem updateBoard_append_one (b : Board) (l : List ConnectFourMove)
    (mv : ConnectFourMove) :
    updateBoard b (l ++ [mv]) =
      setCell (updateBoard b l) mv.row mv.col (pieceCell mv.gamePiece) := by
  unfold updateBoard
  rw [List.foldl_append]
  rfl

theorem updateBoard_apply (l : List ConnectFourMove) (b : Board) (i : Fin 6) (j : Fin 7) :
    updateBoard b l i j = (lastWrite l (i.val : Int) (j.val : Int)).getD (b i j) := by
  induction l generalizing b with
  | nil => rfl
  | cons mv rest ih =>
    rw [updateBoard_cons, ih]
    have hL : lastWrite (mv :: rest) (i.val : Int) (j.val : Int) =
        match lastWrite rest (i.val : Int) (j.val : Int) with
        | some v => some v
        | none =>
          if mv.row = (i.val : Int) ∧ mv.col = (j.val : Int) then
            some (pieceCell mv.gamePiece)
          else none := rfl
    cases h : lastWrite rest (i.val : Int) (j.val : Int) with
    | some v =>
      rw [hL, h]
      rfl
    | none =>
      rw [hL, h]
      simp only [Option.getD_none]
      unfold setCell
      by_cases hm : (i.val : Int) = mv.row ∧ (j.val : Int) = mv.col
      · rw [if_pos hm, if_pos ⟨hm.1.symm, hm.2.symm⟩, Option.getD_some]
      · rw [if_neg hm, if_neg (fun hc => hm ⟨hc.1.symm, hc.2.symm⟩), Option.getD_none]

theorem updateBoard_idem (b : Board) (l : List ConnectFourMove) :
    updateBoard (updateBoard b l) l = updateBoard b l := by
  funext i j
  rw [updateBoard_apply]
  cases h : lastWrite l (i.val : Int) (j.val : Int) with
  | some v =>
    rw [updateBoard_apply, h]
    simp
  | none => simp

theorem determineWinner_moves (s : GameState) (b : Board) (mv : ConnectFourMove) :
    (determineWinner s b mv).moves = s.moves := by
  unfold determineWinner setWinnerAndGameOver
  repeat' split
  all_goals rfl

theorem determineWinner_seats (s : GameState) (b : Board) (mv : ConnectFourMove) :
    (determineWinner s b mv).red = s.red ∧ (determineWinner s b mv).yellow = s.yellow := by
  unfold determineWinner setWinnerAndGameOver
  repeat' split
  all_goals exact ⟨rfl, rfl⟩

theorem applyMove_err (g : GameS) (m : GameMove) :
    (applyMove g m).1 = checkValidMove g m := by
  unfold applyMove
  split <;> simp_all

theorem applyMove_ok (g : GameS) (m : GameMove) (h : checkValidMove g m = none) :
    applyMove g m =
      (none, { g with
        state := determineWinner { g.state with moves := g.state.moves ++ [m.move] }
          (updateBoard g.board (g.state.moves ++ [m.move])) m.move,
        board := updateBoard g.board (g.state.moves ++ [m.move]) }) := by
  unfold applyMove
  rw [h]

theorem applyMove_error_state (g : GameS) (m : GameMove) (e : Err)
    (h : checkValidMove g m = some e) : (applyMove g m).2 = g := by
  unfold applyMove
  rw [h]

theorem checkValidMove_none_pos (g : GameS) (m : GameMove)
    (h : checkValidMove g m = none) : checkValidBoardPosition g.board m = true := by
  unfold checkValidMove at h
  repeat' split at h
  all_goals simp_all

theorem cvbp_spec (b : Board) (m : GameMove) (hv : checkValidBoardPosition b m = true) :
    0 ≤ m.move.col ∧ m.move.col < 7 ∧ 0 ≤ m.move.row ∧ m.move.row < 6 ∧
    getCell b m.move.row m.move.col = some Cell.empty ∧
    (m.move.row = 5 ∨ getCell b (m.move.row + 1) m.move.col ≠ some Cell.empty) := by
  simp only [checkValidBoardPosition] at hv
  by_cases h1 : m.move.col < 0 ∨ 7 ≤ m.move.col ∨ m.move.row < 0 ∨ 6 ≤ m.move.row
  · rw [if_pos h1] at hv
    exact absurd hv (by simp)
  · rw [if_neg h1] at hv
    by_cases h2 : getCell b m.move.row m.move.col ≠ some Cell.empty
    · rw [if_pos h2] at hv
      exact absurd hv (by simp)
    · rw [if_neg h2] at hv
      by_cases h3 : m.move.row ≠ 5 ∧ getCell b (m.move.row + 1) m.move.col = some Cell.empty
      · rw [if_pos h3] at hv
        exact absurd hv (by simp)
      · push_neg at h1 h3
        simp only [not_not] at h2
        refine ⟨by omega, by omega, by omega, by omega, h2, ?_⟩
        by_cases h5 : m.move.row = 5
        · exact Or.inl h5
        · exact Or.inr (h3 h5)

theorem gravity_empty : Gravity emptyBoard := by
  intro r c h hne
  exact absurd rfl hne

theorem gravity_setCell (b : Board) (m : GameMove) (hg : Gravity b)
    (hv : checkValidBoardPosition b m = true) :
    Gravity (setCell b m.move.row m.move.col (pieceCell m.move.gamePiece)) := by
  obtain ⟨hc0, hc7, hr0, hr6, hemp, hbelow⟩ := cvbp_spec b m hv
  intro i j h hne
  have hval : ((⟨i.val + 1, h⟩ : Fin 6).val : Nat) = i.val + 1 := rfl
  unfold setCell at hne ⊢
  rw [hval]
  by_cases hup : (i.val : Int) = m.move.row ∧ (j.val : Int) = m.move.col
  · -- the newly written cell: the cell below it was non-empty (or the floor)
    rw [if_neg (by omega)]
    rcases hbelow with h5 | hne2
    · omega
    · have hgc : getCell b (m.move.row + 1) m.move.col =
          some (b ⟨(m.move.row + 1).toNat, by omega⟩ ⟨m.move.col.toNat, by omega⟩) :=
        getCell_eq b (m.move.row + 1) m.move.col (by omega) (by omega) hc0 hc7
      intro hcontra
      apply hne2
      rw [hgc]
      have hi : (⟨(m.move.row + 1).toNat, by omega⟩ : Fin 6) = ⟨i.val + 1, h⟩ := by
        apply Fin.ext
        show (m.move.row + 1).toNat = i.val + 1
        omega
      have hj : (⟨m.move.col.toNat, by omega⟩ : Fin 7) = j := by
        apply Fin.ext
        show m.move.col.toNat = j.val
        omega
      rw [hi, hj, hcontra]
  · rw [if_neg hup] at hne
    by_cases hlo : ((i.val + 1 : Nat) : Int) = m.move.row ∧
        (j.val : Int) = m.move.col
    · rw [if_pos hlo]
      exact pieceCell_ne_empty _
    · rw [if_neg hlo]
      exact hg i j h hne

theorem joinAssign_moves (s : GameState) (lastGame : Option GameState) (pid : PlayerID) :
    (joinAssign s lastGame pid).moves = s.moves := by
  unfold joinAssign
  repeat' split
  all_goals rfl

theorem joinFinish_moves (s : GameState) : (joinFinish s).moves = s.moves := by
  unfold joinFinish
  split <;> rfl

theorem joinFinish_red (s : GameState) : (joinFinish s).red = s.red := by
  unfold joinFinish
  split <;> rfl

theorem joinFinish_yellow (s : GameState) : (joinFinish s).yellow = s.yellow := by
  unfold joinFinish
  split <;> rfl

theorem join_moves_board (g : GameS) (pid : PlayerID) :
    (join g pid).2.state.moves = g.state.moves ∧ (join g pid).2.board = g.board := by
  simp only [join]
  split
  · exact ⟨rfl, rfl⟩
  · split
    · exact ⟨rfl, rfl⟩
    · refine ⟨?_, rfl⟩
      show (joinFinish (joinAssign g.state g.lastGame pid)).moves = g.state.moves
      rw [joinFinish_moves, joinAssign_moves]

theorem startFirstMover_moves (s : GameState) (lastGame : Option GameState)
    (players : List PlayerID) (pid : PlayerID) :
    (startFirstMover s lastGame players pid).moves = s.moves := by
  unfold startFirstMover
  repeat' split
  all_goals rfl

theorem startReady_moves (s : GameState) (pid : PlayerID) :
    (startReady s pid).moves = s.moves := by
  unfold startReady
  repeat' split
  all_goals rfl

theorem startProgress_moves (s : GameState) : (startProgress s).moves = s.moves := by
  unfold startProgress
  split <;> rfl

theorem startReady_firstPlayer (s : GameState) (pid : PlayerID) :
    (startReady s pid).firstPlayer = s.firstPlayer := by
  unfold startReady
  repeat' split
  all_goals rfl

theorem startProgress_firstPlayer (s : GameState) :
    (startProgress s).firstPlayer = s.firstPlayer := by
  unfold startProgress
  split <;> rfl

theorem startGame_moves_board (g : GameS) (pid : PlayerID) :
    (startGame g pid).2.state.moves = g.state.moves ∧
    (startGame g pid).2.board = g.board := by
  simp only [startGame]
  split
  · exact ⟨rfl, rfl⟩
  · split
    · exact ⟨rfl, rfl⟩
    · refine ⟨?_, rfl⟩
      show (startProgress (startReady
        (startFirstMover g.state g.lastGame g.players pid) pid)).moves = g.state.moves
      rw [startProgress_moves, startReady_moves, startFirstMover_moves]

theorem leaveForfeit_moves (s : GameState) (pid : PlayerID) :
    (leaveForfeit s pid).moves = s.moves := by
  unfold leaveForfeit
  repeat' split
  all_goals rfl

theorem leaveClearWTS_moves (s : GameState) (pid : PlayerID) :
    (leaveClearWTS s pid).moves = s.moves := by
  unfold leaveClearWTS
  repeat' split
  all_goals rfl

theorem leaveFirstPlayerBranch_moves (s : GameState) (pid : PlayerID) :
    (leaveFirstPlayerBranch s pid).moves = s.moves := by
  unfold leaveFirstPlayerBranch
  repeat' split
  all_goals rfl

theorem leaveClearWFP_moves (s : GameState) (pid : PlayerID) :
    (leaveClearWFP s pid).moves = s.moves := by
  unfold leaveClearWFP
  repeat' split
  all_goals rfl

theorem leave_moves_board (g : GameS) (pid : PlayerID) :
    (leave g pid).game.state.moves = g.state.moves ∧
    (leave g pid).game.board = g.board := by
  simp only [leave]
  split
  · exact ⟨rfl, rfl⟩
  · split
    · exact ⟨leaveForfeit_moves g.state pid, rfl⟩
    · split
      · exact ⟨by rw [leaveClearWFP_moves, leaveFirstPlayerBranch_moves,
          leaveClearWTS_moves, leaveForfeit_moves], rfl⟩
      · exact ⟨by rw [leaveClearWFP_moves, leaveFirstPlayerBranch_moves,
          leaveClearWTS_moves, leaveForfeit_moves], rfl⟩

theorem reachable_inv (g : GameS) (h : Reachable g) :
    g.board = updateBoard emptyBoard g.state.moves ∧ Gravity g.board := by
  induction h with
  | init prior => exact ⟨rfl, gravity_empty⟩
  | joinStep g pid hr ih =>
    obtain ⟨hm, hb⟩ := join_moves_board g pid
    rw [hm, hb]
    exact ih
  | startStep g pid hr ih =>
    obtain ⟨hm, hb⟩ := startGame_moves_board g pid
    rw [hm, hb]
    exact ih
  | leaveStep g pid hr ih =>
    obtain ⟨hm, hb⟩ := leave_moves_board g pid
    rw [hm, hb]
    exact ih
  | moveStep g m hr ih =>
    cases herr : checkValidMove g m with
    | some e =>
      rw [applyMove_error_state g m e herr]
      exact ih
    | none =>
      rw [applyMove_ok g m herr]
      have hupd : updateBoard g.board (g.state.moves ++ [m.move]) =
          setCell g.board m.move.row m.move.col (pieceCell m.move.gamePiece) := by
        rw [updateBoard_append_one, ih.1, updateBoard_idem, ← ih.1]
      constructor
      · show updateBoard g.board (g.state.moves ++ [m.move]) =
          updateBoard emptyBoard (determineWinner _ _ _).moves
        rw [determineWinner_moves]
        show _ = updateBoard emptyBoard (g.state.moves ++ [m.move])
        rw [hupd, updateBoard_append_one, ← ih.1]
      · show Gravity (updateBoard g.board (g.state.moves ++ [m.move]))
        rw [hupd]
        exact gravity_setCell g.board m ih.2 (checkValidMove_none_pos g m herr)

/-- C7: for every reachable game, the board equals the board obtained by
replaying the move log in order against an empty board (the board is a pure
cache of the move log). -/
theorem c7_board_replays_move_log (g : GameS) (h : Reachable g) :
    g.board = updateBoard emptyBoard g.state.moves :=
  (reachable_inv g h).1

theorem c7_witness :
    (newGame none).board = updateBoard emptyBoard (newGame none).state.moves :=
  c7_board_replays_move_log (newGame none) (Reachable.init none)

/-- C8: an accepted move satisfies the placeability conditions (column in
`[0,6]`, row in `[0,5]`, target empty, floor row or support below), and
consequently every reachable board satisfies the gravity invariant. -/
theorem c8_placeable_and_gravity :
    (∀ (g : GameS) (m : GameMove), (applyMove g m).1 = none →
      placeableSpec g.board m.move) ∧
    (∀ g : GameS, Reachable g → Gravity g.board) := by
  constructor
  · intro g m h
    rw [applyMove_err] at h
    obtain ⟨hc0, hc7, hr0, hr6, hemp, hbelow⟩ :=
      cvbp_spec g.board m (checkValidMove_none_pos g m h)
    refine ⟨hc0, by omega, hr0, by omega, hemp, ?_⟩
    rcases hbelow with h5 | hne
    · exact Or.inl h5
    · by_cases h5 : m.move.row = 5
      · exact Or.inl h5
      · refine Or.inr
          ⟨g.board ⟨(m.move.row + 1).toNat, by omega⟩ ⟨m.move.col.toNat, by omega⟩,
            getCell_eq g.board (m.move.row + 1) m.move.col (by omega) (by omega)
              hc0 hc7, ?_⟩
        intro hveq
        apply hne
        rw [getCell_eq g.board (m.move.row + 1) m.move.col (by omega) (by omega) hc0 hc7]
        exact congrArg some hveq
  · intro g h
    exact (reachable_inv g h).2

theorem c8_witness :
    placeableSpec liveGame.board ⟨Piece.Red, 0, 5⟩ ∧ Gravity (newGame none).board :=
  ⟨c8_placeable_and_gravity.1 liveGame ⟨"p1", ⟨Piece.Red, 0, 5⟩⟩ (by decide),
   c8_placeable_and_gravity.2 (newGame none) (Reachable.init none)⟩

theorem leaveForfeit_seats (s : GameState) (pid : PlayerID) :
    (leaveForfeit s pid).red = s.red ∧ (leaveForfeit s pid).yellow = s.yellow := by
  unfold leaveForfeit
  repeat' split
  all_goals exact ⟨rfl, rfl⟩

theorem leaveClearWTS_status_ne_over (s : GameState) (pid : PlayerID)
    (h : s.status ≠ Status.over) : (leaveClearWTS s pid).status ≠ Status.over := by
  unfold leaveClearWTS
  repeat' split
  all_goals simp_all

theorem leaveFirstPlayerBranch_status (s : GameState) (pid : PlayerID) :
    (leaveFirstPlayerBranch s pid).status = s.status := by
  unfold leaveFirstPlayerBranch
  repeat' split
  all_goals rfl

theorem leaveClearWFP_status_ne_over (s : GameState) (pid : PlayerID)
    (h : s.status ≠ Status.over) : (leaveClearWFP s pid).status ≠ Status.over := by
  unfold leaveClearWFP
  repeat' split
  all_goals simp_all

/-- C1 (code bug): a Leave call that lands the round on Over never prepares
a successor.  On the concrete forfeit input, the round ends (status Over,
no error) yet the `created` successor is `none`: the early return at lines
192-196 fires before the `_createNewGame` call at line 248 can run - that
call is unreachable on every input (final conjunct) - and `_createNewGame`
itself would construct a game without a predecessor reference anyway
(fourth conjunct). -/
theorem c1_leave_never_creates_successor :
    (leave liveGame "p1").game.state.status = Status.over ∧
    (leave liveGame "p1").err = none ∧
    (leave liveGame "p1").created = none ∧
    (createNewGame (leave liveGame "p1").game).lastGame = none ∧
    (∀ (g : GameS) (pid : PlayerID), (leave g pid).created = none) := by
  refine ⟨by decide, by decide, rfl, rfl, ?_⟩
  intro g pid
  simp only [leave]
  split
  · rfl
  · split
    · rfl
    · rename_i hseated hnotover
      split
      · rename_i hover
        exfalso
        have h1 : (leaveForfeit g.state pid).status ≠ Status.over := by
          intro ho
          apply hnotover
          refine ⟨?_, ho⟩
          obtain ⟨hr, hy⟩ := leaveForfeit_seats g.state pid
          rw [hr, hy]
          push_neg at hseated
          by_cases hrc : g.state.red = some pid
          · exact Or.inl hrc
          · exact Or.inr (hseated hrc)
        have h2 := leaveClearWTS_status_ne_over (leaveForfeit g.state pid) pid h1
        have h3 : (leaveFirstPlayerBranch
            (leaveClearWTS (leaveForfeit g.state pid) pid) pid).status ≠
            Status.over := by
          rw [leaveFirstPlayerBranch_status]
          exact h2
        exact leaveClearWFP_status_ne_over _ pid h3 hover
      · rfl

/-- C5: seat assignment on a successful join into a round with a
predecessor, under the seat well-formedness the spec guarantees (a player
holds at most one seat in the predecessor; the two current seats are not the
same identity): a player who held Red (resp. Yellow) in the predecessor gets
it back when free, gets the other - free - seat when it is taken, and a
player with no predecessor seat gets whichever seat is free, Red first. -/
theorem c5_join_seat_assignment (g : GameS) (pid : PlayerID) (lg : GameState)
    (hlast : g.lastGame = some lg)
    (hok : (join g pid).1 = none)
    (hlg : ¬(lg.red = some pid ∧ lg.yellow = some pid))
    (hcur : ¬(g.state.red.isSome ∧ g.state.red = g.state.yellow)) :
    (lg.red = some pid → g.state.red = none → (join g pid).2.state.red = some pid) ∧
    (lg.yellow = some pid → g.state.yellow = none →
      (join g pid).2.state.yellow = some pid) ∧
    (lg.red = some pid → g.state.red ≠ none →
      g.state.yellow = none ∧ (join g pid).2.state.yellow = some pid) ∧
    (lg.yellow = some pid → g.state.yellow ≠ none →
      g.state.red = none ∧ (join g pid).2.state.red = some pid) ∧
    (lg.red ≠ some pid → lg.yellow ≠ some pid →
      (g.state.red = none → (join g pid).2.state.red = some pid) ∧
      (g.state.red ≠ none →
        g.state.yellow = none ∧ (join g pid).2.state.yellow = some pid)) := by
  by_cases hA : g.state.red = some pid ∨ g.state.yellow = some pid
  · exfalso
    simp [join, hA] at hok
  by_cases hB : g.state.red.isSome ∧ g.state.yellow.isSome ∧ g.state.red ≠ g.state.yellow
  · exfalso
    simp only [join, if_neg hA] at hok
    rw [if_pos hB] at hok
    exact Option.noConfusion hok
  have hyfree : g.state.red ≠ none → g.state.yellow = none := by
    intro hr
    by_cases hy : g.state.yellow = none
    · exact hy
    · exfalso
      have hrs : g.state.red.isSome := Option.isSome_iff_ne_none.mpr hr
      have hys : g.state.yellow.isSome := Option.isSome_iff_ne_none.mpr hy
      have heq : g.state.red = g.state.yellow := by
        by_contra hne
        exact hB ⟨hrs, hys, hne⟩
      exact hcur ⟨hrs, heq⟩
  have hrfree : g.state.yellow ≠ none → g.state.red = none := by
    intro hy
    by_cases hr : g.state.red = none
    · exact hr
    · exfalso
      have hrs : g.state.red.isSome := Option.isSome_iff_ne_none.mpr hr
      have hys : g.state.yellow.isSome := Option.isSome_iff_ne_none.mpr hy
      have heq : g.state.red = g.state.yellow := by
        by_contra hne
        exact hB ⟨hrs, hys, hne⟩
      exact hcur ⟨hrs, heq⟩
  have hstate : (join g pid).2.state = joinFinish (joinAssign g.state g.lastGame pid) := by
    simp only [join, if_neg hA, if_neg hB]
  refine ⟨?_, ?_, ?_, ?_, ?_⟩
  · intro h1 h2
    rw [hstate, joinFinish_red, hlast]
    simp only [joinAssign]
    rw [if_pos ⟨h2, h1⟩]
  · intro h1 h2
    rw [hstate, joinFinish_yellow, hlast]
    simp only [joinAssign]
    rw [if_neg (fun hc => hlg ⟨hc.2, h1⟩), if_pos ⟨h2, h1⟩]
  · intro h1 h2
    have hy := hyfree h2
    refine ⟨hy, ?_⟩
    rw [hstate, joinFinish_yellow, hlast]
    simp only [joinAssign]
    rw [if_neg (fun hc => h2 hc.1), if_neg (fun hc => hlg ⟨h1, hc.2⟩),
      if_pos ⟨h2, h1⟩]
  · intro h1 h2
    have hr := hrfree h2
    refine ⟨hr, ?_⟩
    rw [hstate, joinFinish_red, hlast]
    simp only [joinAssign]
    rw [if_neg (fun hc => hlg ⟨hc.2, h1⟩), if_neg (fun hc => h2 hc.1),
      if_neg (fun hc => absurd hr hc.1), if_pos ⟨h2, h1⟩]
  · intro h1 h2
    constructor
    · intro hr
      rw [hstate, joinFinish_red, hlast]
      simp only [joinAssign]
      rw [if_neg (fun hc => h1 hc.2), if_neg (fun hc => h2 hc.2),
        if_neg (fun hc => h1 hc.2), if_neg (fun hc => h2 hc.2), if_pos hr]
    · intro hr
      have hy := hyfree hr
      refine ⟨hy, ?_⟩
      rw [hstate, joinFinish_yellow, hlast]
      simp only [joinAssign]
      rw [if_neg (fun hc => h1 hc.2), if_neg (fun hc => h2 hc.2),
        if_neg (fun hc => h1 hc.2), if_neg (fun hc => h2 hc.2), if_neg hr]

theorem c5_witness :
    (newGame (some predState)).lastGame = some predState ∧
    (join (newGame (some predState)) "p1").1 = none ∧
    (join (newGame (some predState)) "p1").2.state.red = some "p1" :=
  ⟨rfl, by decide,
    (c5_join_seat_assignment (newGame (some predState)) "p1" predState rfl
      (by decide) (by decide) (by decide)).1 (by decide) (by decide)⟩

/-- C6 (code bug): a successful StartGame with a predecessor round but no
carried-over seated player does not set the first-mover to Red.  The
lines 73-88 branch for a present predecessor without carryover assigns
nothing, so the first-mover keeps whatever value it drifted to earlier in
the same round - contradicting the claim and the source's own doc comment
(lines 54-57: with no seated player from the last game, the first player is
red).  `driftGame` is reached through public operations alone; its round is
WaitingToStart with predecessor `predState`, its seats hold `r` and `q`,
neither of whom held a predecessor seat, and `q`'s successful StartGame
leaves the first-mover Yellow. -/
theorem c6_first_mover_not_reset_to_red :
    Reachable driftGame ∧
    driftGame.state.status = Status.waitingToStart ∧
    driftGame.lastGame = some predState ∧
    driftGame.state.red = some "r" ∧ driftGame.state.yellow = some "q" ∧
    ¬(predState.red = some "r" ∨ predState.yellow = some "r") ∧
    ¬(predState.red = some "q" ∨ predState.yellow = some "q") ∧
    (startGame driftGame "q").1 = none ∧
    (startGame driftGame "q").2.state.firstPlayer = Piece.Yellow := by
  refine ⟨?_, by decide, by decide, by decide, by decide, by decide, by decide,
    by decide, by decide⟩
  exact Reachable.joinStep _ _ (Reachable.leaveStep _ _ (Reachable.startStep _ _
    (Reachable.joinStep _ _ (Reachable.joinStep _ _ (Reachable.init (some predState))))))

theorem getCell_setCell_same (b : Board) (r c : Int) (v : Cell)
    (hr0 : 0 ≤ r) (hr : r < 6) (hc0 : 0 ≤ c) (hc : c < 7) :
    getCell (setCell b r c v) r c = some v := by
  rw [getCell_eq _ r c hr0 hr hc0 hc]
  unfold setCell
  have h1 : ((r.toNat : Nat) : Int) = r := by omega
  have h2 : ((c.toNat : Nat) : Int) = c := by omega
  rw [if_pos ⟨h1, h2⟩]

/-- C10: the submitted `gamePiece` is never validated against the seat of
the submitting player: an in-progress, in-turn, placeable move is accepted
whatever its `gamePiece`, that `gamePiece` is what gets written into the
board cell, and it is what attributes the winner when the move wins. -/
theorem c10_gamePiece_never_validated (g : GameS) (m : GameMove)
    (hs : g.state.status = Status.inProgress)
    (hseat : g.state.red = some m.playerID ∨ g.state.yellow = some m.playerID)
    (ht : isTurn g.state m = true)
    (hb : checkValidBoardPosition g.board m = true) :
    (applyMove g m).1 = none ∧
    getCell (applyMove g m).2.board m.move.row m.move.col =
      some (pieceCell m.move.gamePiece) ∧
    ((hasHorizontalWin (applyMove g m).2.board = true ∨
      hasVerticalWin (applyMove g m).2.board = true ∨
      hasDiagTLBR (applyMove g m).2.board = true ∨
      hasDiagBLTR (applyMove g m).2.board = true) →
      (applyMove g m).2.state.winner =
        (if m.move.gamePiece = Piece.Red then g.state.red else g.state.yellow)) := by
  have hcv : checkValidMove g m = none := by
    unfold checkValidMove
    rw [if_neg (by simp [hs]), if_neg (by
        rcases hseat with h | h
        · exact fun hc => hc.1 h
        · exact fun hc => hc.2 h),
      if_neg (fun hc => hc.2.2 ht), if_neg (fun hc => hc.2.2 ht),
      if_neg (by simp [ht]), if_neg (by simp [hb])]
  obtain ⟨hc0, hc7, hr0, hr6, _, _⟩ := cvbp_spec g.board m hb
  refine ⟨by rw [applyMove_err, hcv], ?_, ?_⟩
  · rw [applyMove_ok g m hcv]
    show getCell (updateBoard g.board (g.state.moves ++ [m.move])) _ _ = _
    rw [updateBoard_append_one]
    exact getCell_setCell_same _ _ _ _ hr0 hr6 hc0 hc7
  · intro hor
    rw [applyMove_ok g m hcv] at hor ⊢
    show (determineWinner _ _ _).winner = _
    unfold determineWinner
    by_cases h1 : hasHorizontalWin (updateBoard g.board (g.state.moves ++ [m.move])) = true
    · rw [if_pos h1]
    · rw [if_neg h1]
      by_cases h2 : hasVerticalWin (updateBoard g.board (g.state.moves ++ [m.move])) = true
      · rw [if_pos h2]
      · rw [if_neg h2]
        by_cases h3 : hasDiagTLBR (updateBoard g.board (g.state.moves ++ [m.move])) = true
        · rw [if_pos h3]
          rfl
        · rw [if_neg h3]
          by_cases h4 :
              hasDiagBLTR (updateBoard g.board (g.state.moves ++ [m.move])) = true
          · rw [if_pos h4]
            rfl
          · exfalso
            rcases hor with h | h | h | h
            · exact h1 h
            · exact h2 h
            · exact h3 h
            · exact h4 h

theorem c10_witness :
    liveGame.state.red = some "p1" ∧
    (applyMove liveGame ⟨"p1", ⟨Piece.Yellow, 0, 5⟩⟩).1 = none ∧
    getCell (applyMove liveGame ⟨"p1", ⟨Piece.Yellow, 0, 5⟩⟩).2.board 5 0 =
      some Cell.Y :=
  ⟨rfl,
   (c10_gamePiece_never_validated liveGame ⟨"p1", ⟨Piece.Yellow, 0, 5⟩⟩
     (by decide) (by decide) (by decide) (by decide)).1,
   (c10_gamePiece_never_validated liveGame ⟨"p1", ⟨Piece.Yellow, 0, 5⟩⟩
     (by decide) (by decide) (by decide) (by decide)).2.1⟩

theorem fin_mk_val {N : Nat} (n : Nat) (h : n < N) : (⟨n, h⟩ : Fin N).val = n := rfl

theorem cell_of_getCell {b : Board} {v : Cell} {m n : Nat} (hm : m < 6) (hn : n < 7)
    (h : getCell b (m : Int) (n : Int) = some v) : b ⟨m, hm⟩ ⟨n, hn⟩ = v := by
  rw [getCell_natLt b m n hm hn] at h
  exact Option.some_inj.mp h

set_option synthInstance.maxHeartbeats 400000 in
set_option synthInstance.maxSize 512 in
set_option maxHeartbeats 1000000 in
theorem scanRun_seven (x0 x1 x2 x3 x4 x5 x6 : Cell) :
    scanRun [x1, x2, x3, x4, x5, x6] x0 1 = true ↔
      ((x0 ≠ Cell.empty ∧ x1 = x0 ∧ x2 = x0 ∧ x3 = x0) ∨
       (x1 ≠ Cell.empty ∧ x2 = x1 ∧ x3 = x1 ∧ x4 = x1) ∨
       (x2 ≠ Cell.empty ∧ x3 = x2 ∧ x4 = x2 ∧ x5 = x2) ∨
       (x3 ≠ Cell.empty ∧ x4 = x3 ∧ x5 = x3 ∧ x6 = x3)) := by
  revert x0 x1 x2 x3 x4 x5 x6
  decide

set_option synthInstance.maxHeartbeats 400000 in
set_option synthInstance.maxSize 512 in
set_option maxHeartbeats 1000000 in
theorem scanRun_six (x0 x1 x2 x3 x4 x5 : Cell) :
    scanRun [x1, x2, x3, x4, x5] x0 1 = true ↔
      ((x0 ≠ Cell.empty ∧ x1 = x0 ∧ x2 = x0 ∧ x3 = x0) ∨
       (x1 ≠ Cell.empty ∧ x2 = x1 ∧ x3 = x1 ∧ x4 = x1) ∨
       (x2 ≠ Cell.empty ∧ x3 = x2 ∧ x4 = x2 ∧ x5 = x2)) := by
  revert x0 x1 x2 x3 x4 x5
  decide

theorem hasHorizontalWin_iff (b : Board) :
    hasHorizontalWin b = true ↔ ∃ v, v ≠ Cell.empty ∧ HRunOf b v := by
  unfold hasHorizontalWin
  simp only [List.any_eq_true, List.mem_finRange, true_and]
  constructor
  · rintro ⟨r, hscan⟩
    rw [scanRun_seven] at hscan
    rcases hscan with ⟨h0, h1, h2, h3⟩ | ⟨h0, h1, h2, h3⟩ | ⟨h0, h1, h2, h3⟩ | ⟨h0, h1, h2, h3⟩
    · refine ⟨b r 0, h0, r, 0, ?_⟩
      intro k
      fin_cases k
      · exact getCell_natLt b r.val 0 r.isLt (by norm_num)
      · exact (getCell_natLt b r.val 1 r.isLt (by norm_num)).trans (congrArg some h1)
      · exact (getCell_natLt b r.val 2 r.isLt (by norm_num)).trans (congrArg some h2)
      · exact (getCell_natLt b r.val 3 r.isLt (by norm_num)).trans (congrArg some h3)
    · refine ⟨b r 1, h0, r, 1, ?_⟩
      intro k
      fin_cases k
      · exact getCell_natLt b r.val 1 r.isLt (by norm_num)
      · exact (getCell_natLt b r.val 2 r.isLt (by norm_num)).trans (congrArg some h1)
      · exact (getCell_natLt b r.val 3 r.isLt (by norm_num)).trans (congrArg some h2)
      · exact (getCell_natLt b r.val 4 r.isLt (by norm_num)).trans (congrArg some h3)
    · refine ⟨b r 2, h0, r, 2, ?_⟩
      intro k
      fin_cases k
      · exact getCell_natLt b r.val 2 r.isLt (by norm_num)
      · exact (getCell_natLt b r.val 3 r.isLt (by norm_num)).trans (congrArg some h1)
      · exact (getCell_natLt b r.val 4 r.isLt (by norm_num)).trans (congrArg some h2)
      · exact (getCell_natLt b r.val 5 r.isLt (by norm_num)).trans (congrArg some h3)
    · refine ⟨b r 3, h0, r, 3, ?_⟩
      intro k
      fin_cases k
      · exact getCell_natLt b r.val 3 r.isLt (by norm_num)
      · exact (getCell_natLt b r.val 4 r.isLt (by norm_num)).trans (congrArg some h1)
      · exact (getCell_natLt b r.val 5 r.isLt (by norm_num)).trans (congrArg some h2)
      · exact (getCell_natLt b r.val 6 r.isLt (by norm_num)).trans (congrArg some h3)
  · rintro ⟨v, hv, r, c, hk⟩
    refine ⟨r, ?_⟩
    rw [scanRun_seven]
    fin_cases c
    · have e0 := cell_of_getCell r.isLt (by decide) (hk 0)
      have e1 := cell_of_getCell r.isLt (by decide) (hk 1)
      have e2 := cell_of_getCell r.isLt (by decide) (hk 2)
      have e3 := cell_of_getCell r.isLt (by decide) (hk 3)
      exact Or.inl ⟨fun hc => hv (e0.symm.trans hc), e1.trans e0.symm,
        e2.trans e0.symm, e3.trans e0.symm⟩
    · have e0 := cell_of_getCell r.isLt (by decide) (hk 0)
      have e1 := cell_of_getCell r.isLt (by decide) (hk 1)
      have e2 := cell_of_getCell r.isLt (by decide) (hk 2)
      have e3 := cell_of_getCell r.isLt (by decide) (hk 3)
      exact Or.inr (Or.inl ⟨fun hc => hv (e0.symm.trans hc), e1.trans e0.symm,
        e2.trans e0.symm, e3.trans e0.symm⟩)
    · have e0 := cell_of_getCell r.isLt (by decide) (hk 0)
      have e1 := cell_of_getCell r.isLt (by decide) (hk 1)
      have e2 := cell_of_getCell r.isLt (by decide) (hk 2)
      have e3 := cell_of_getCell r.isLt (by decide) (hk 3)
      exact Or.inr (Or.inr (Or.inl ⟨fun hc => hv (e0.symm.trans hc), e1.trans e0.symm,
        e2.trans e0.symm, e3.trans e0.symm⟩))
    · have e0 := cell_of_getCell r.isLt (by decide) (hk 0)
      have e1 := cell_of_getCell r.isLt (by decide) (hk 1)
      have e2 := cell_of_getCell r.isLt (by decide) (hk 2)
      have e3 := cell_of_getCell r.isLt (by decide) (hk 3)
      exact Or.inr (Or.inr (Or.inr ⟨fun hc => hv (e0.symm.trans hc), e1.trans e0.symm,
        e2.trans e0.symm, e3.trans e0.symm⟩))

theorem hasVerticalWin_iff (b : Board) :
    hasVerticalWin b = true ↔ ∃ v, v ≠ Cell.empty ∧ VRunOf b v := by
  unfold hasVerticalWin
  simp only [List.any_eq_true, List.mem_finRange, true_and]
  constructor
  · rintro ⟨c, hscan⟩
    rw [scanRun_six] at hscan
    rcases hscan with ⟨h0, h1, h2, h3⟩ | ⟨h0, h1, h2, h3⟩ | ⟨h0, h1, h2, h3⟩
    · refine ⟨b 0 c, h0, 0, c, ?_⟩
      intro k
      fin_cases k
      · exact getCell_natLt b 0 c.val (by norm_num) c.isLt
      · exact (getCell_natLt b 1 c.val (by norm_num) c.isLt).trans (congrArg some h1)
      · exact (getCell_natLt b 2 c.val (by norm_num) c.isLt).trans (congrArg some h2)
      · exact (getCell_natLt b 3 c.val (by norm_num) c.isLt).trans (congrArg some h3)
    · refine ⟨b 1 c, h0, 1, c, ?_⟩
      intro k
      fin_cases k
      · exact getCell_natLt b 1 c.val (by norm_num) c.isLt
      · exact (getCell_natLt b 2 c.val (by norm_num) c.isLt).trans (congrArg some h1)
      · exact (getCell_natLt b 3 c.val (by norm_num) c.isLt).trans (congrArg some h2)
      · exact (getCell_natLt b 4 c.val (by norm_num) c.isLt).trans (congrArg some h3)
    · refine ⟨b 2 c, h0, 2, c, ?_⟩
      intro k
      fin_cases k
      · exact getCell_natLt b 2 c.val (by norm_num) c.isLt
      · exact (getCell_natLt b 3 c.val (by norm_num) c.isLt).trans (congrArg some h1)
      · exact (getCell_natLt b 4 c.val (by norm_num) c.isLt).trans (congrArg some h2)
      · exact (getCell_natLt b 5 c.val (by norm_num) c.isLt).trans (congrArg some h3)
  · rintro ⟨v, hv, r, c, hk⟩
    refine ⟨c, ?_⟩
    rw [scanRun_six]
    fin_cases r
    · have e0 := cell_of_getCell (by decide) c.isLt (hk 0)
      have e1 := cell_of_getCell (by decide) c.isLt (hk 1)
      have e2 := cell_of_getCell (by decide) c.isLt (hk 2)
      have e3 := cell_of_getCell (by decide) c.isLt (hk 3)
      exact Or.inl ⟨fun hc => hv (e0.symm.trans hc), e1.trans e0.symm,
        e2.trans e0.symm, e3.trans e0.symm⟩
    · have e0 := cell_of_getCell (by decide) c.isLt (hk 0)
      have e1 := cell_of_getCell (by decide) c.isLt (hk 1)
      have e2 := cell_of_getCell (by decide) c.isLt (hk 2)
      have e3 := cell_of_getCell (by decide) c.isLt (hk 3)
      exact Or.inr (Or.inl ⟨fun hc => hv (e0.symm.trans hc), e1.trans e0.symm,
        e2.trans e0.symm, e3.trans e0.symm⟩)
    · have e0 := cell_of_getCell (by decide) c.isLt (hk 0)
      have e1 := cell_of_getCell (by decide) c.isLt (hk 1)
      have e2 := cell_of_getCell (by decide) c.isLt (hk 2)
      have e3 := cell_of_getCell (by decide) c.isLt (hk 3)
      exact Or.inr (Or.inr ⟨fun hc => hv (e0.symm.trans hc), e1.trans e0.symm,
        e2.trans e0.symm, e3.trans e0.symm⟩)

theorem hasDiagTLBR_iff (b : Board) :
    hasDiagTLBR b = true ↔ ∃ v, v ≠ Cell.empty ∧ D1RunOf b v := by
  unfold hasDiagTLBR
  simp only [List.any_eq_true, List.mem_finRange, true_and, decide_eq_true_eq]
  constructor
  · rintro ⟨r, c, hne, h0, h1, h2, h3⟩
    obtain ⟨hr0, hr6, hc0, hc7⟩ := getCell_some_bounds b _ _ _ h3
    refine ⟨b r c, hne, ⟨r.val, by omega⟩, ⟨c.val, by omega⟩, ?_⟩
    intro k
    fin_cases k
    · exact h0
    · exact h1
    · exact h2
    · exact h3
  · rintro ⟨v, hv, r, c, hk⟩
    have hk0 := hk ⟨0, by norm_num⟩
    have hk1 := hk ⟨1, by norm_num⟩
    have hk2 := hk ⟨2, by norm_num⟩
    have hk3 := hk ⟨3, by norm_num⟩
    simp only [fin_mk_val] at hk0 hk1 hk2 hk3
    have e0 := cell_of_getCell (by omega) (by omega) hk0
    refine ⟨⟨r.val, by omega⟩, ⟨c.val, by omega⟩,
      fun hc => hv (e0.symm.trans hc), ?_, ?_, ?_, ?_⟩
    · exact getCell_natLt b r.val c.val (by omega) (by omega)
    · exact hk1.trans (congrArg some e0.symm)
    · exact hk2.trans (congrArg some e0.symm)
    · exact hk3.trans (congrArg some e0.symm)

theorem hasDiagBLTR_iff (b : Board) :
    hasDiagBLTR b = true ↔ ∃ v, v ≠ Cell.empty ∧ D2RunOf b v := by
  unfold hasDiagBLTR
  simp only [List.any_eq_true, List.mem_finRange, true_and, decide_eq_true_eq]
  constructor
  · rintro ⟨r, c, hne, h0, h1, h2, h3⟩
    obtain ⟨hr0, hr6, hc0, hc7⟩ := getCell_some_bounds b _ _ _ h3
    refine ⟨b r c, hne, ⟨r.val - 3, by omega⟩, ⟨c.val, by omega⟩, ?_⟩
    intro k
    fin_cases k
    · convert h0 using 2
      all_goals
        simp only [fin_mk_val]
        omega
    · convert h1 using 2
      all_goals
        simp only [fin_mk_val]
        omega
    · convert h2 using 2
      all_goals
        simp only [fin_mk_val]
        omega
    · convert h3 using 2
      all_goals
        simp only [fin_mk_val]
        omega
  · rintro ⟨v, hv, r, c, hk⟩
    have hk0 := hk ⟨0, by norm_num⟩
    have hk1 := hk ⟨1, by norm_num⟩
    have hk2 := hk ⟨2, by norm_num⟩
    have hk3 := hk ⟨3, by norm_num⟩
    simp only [fin_mk_val] at hk0 hk1 hk2 hk3
    have e0 := cell_of_getCell (by omega) (by omega) hk0
    refine ⟨⟨r.val + 3, by omega⟩, ⟨c.val, by omega⟩,
      fun hc => hv (e0.symm.trans hc), ?_, ?_, ?_, ?_⟩
    · exact getCell_natLt b (r.val + 3) c.val (by omega) (by omega)
    · convert hk1.trans (congrArg some e0.symm) using 2
      all_goals
        simp only [fin_mk_val]
        omega
    · convert hk2.trans (congrArg some e0.symm) using 2
      all_goals
        simp only [fin_mk_val]
        omega
    · convert hk3.trans (congrArg some e0.symm) using 2
      all_goals
        simp only [fin_mk_val]
        omega

theorem hasNonEmptyCell_iff (b : Board) :
    hasNonEmptyCell b = true ↔ ∃ (r : Fin 6) (c : Fin 7), b r c ≠ Cell.empty := by
  unfold hasNonEmptyCell
  simp only [List.any_eq_true, List.mem_finRange, true_and, decide_eq_true_eq]

theorem anyWin_iff (b : Board) :
    (hasHorizontalWin b = true ∨ hasVerticalWin b = true ∨
     hasDiagTLBR b = true ∨ hasDiagBLTR b = true) ↔
    ∃ v, v ≠ Cell.empty ∧ RunOfCell b v := by
  rw [hasHorizontalWin_iff, hasVerticalWin_iff, hasDiagTLBR_iff, hasDiagBLTR_iff]
  unfold RunOfCell
  constructor
  · rintro (⟨v, hv, h⟩ | ⟨v, hv, h⟩ | ⟨v, hv, h⟩ | ⟨v, hv, h⟩)
    · exact ⟨v, hv, Or.inl h⟩
    · exact ⟨v, hv, Or.inr (Or.inl h)⟩
    · exact ⟨v, hv, Or.inr (Or.inr (Or.inl h))⟩
    · exact ⟨v, hv, Or.inr (Or.inr (Or.inr h))⟩
  · rintro ⟨v, hv, h | h | h | h⟩
    · exact Or.inl ⟨v, hv, h⟩
    · exact Or.inr (Or.inl ⟨v, hv, h⟩)
    · exact Or.inr (Or.inr (Or.inl ⟨v, hv, h⟩))
    · exact Or.inr (Or.inr (Or.inr ⟨v, hv, h⟩))

/-- C3: result determination priority of `_determineWinner`.  If the board
holds any four-in-a-row (any direction) the result is a Win: status Over,
winner the seat holding the winning color (for boards reached by accepted
moves every run carries the just-played color, which hypothesis `hcol`
captures); this holds whatever the move-log length, so a 42nd move that
completes a run is a Win, never a Tie.  A Tie (Over, winner unset) is
produced only when no run exists, the move log length is exactly 42, and the
board is non-empty; with no run and fewer than 42 moves the state is left
unchanged. -/
theorem c3_win_tie_priority (s : GameState) (b : Board) (mv : ConnectFourMove) :
    (∀ v, v ≠ Cell.empty → RunOfCell b v →
      (∀ w, w ≠ Cell.empty → RunOfCell b w → w = pieceCell mv.gamePiece) →
      determineWinner s b mv =
        { s with status := Status.over, winner := cellSeat s v }) ∧
    ((∀ v, v ≠ Cell.empty → ¬ RunOfCell b v) → s.moves.length = 42 →
      (∃ (r : Fin 6) (c : Fin 7), b r c ≠ Cell.empty) →
      determineWinner s b mv = { s with status := Status.over, winner := none }) ∧
    ((∀ v, v ≠ Cell.empty → ¬ RunOfCell b v) → s.moves.length ≠ 42 →
      determineWinner s b mv = s) := by
  refine ⟨?_, ?_, ?_⟩
  · intro v hv hrun hcol
    have hvp : v = pieceCell mv.gamePiece := hcol v hv hrun
    have hdet := (anyWin_iff b).mpr ⟨v, hv, hrun⟩
    have hw : cellSeat s v = (if mv.gamePiece = Piece.Red then s.red else s.yellow) := by
      subst hvp
      cases mv.gamePiece <;> simp [cellSeat, pieceCell]
    rw [hw]
    unfold determineWinner
    by_cases h1 : hasHorizontalWin b = true
    · rw [if_pos h1]
    · rw [if_neg h1]
      by_cases h2 : hasVerticalWin b = true
      · rw [if_pos h2]
      · rw [if_neg h2]
        by_cases h3 : hasDiagTLBR b = true
        · rw [if_pos h3]
          rfl
        · rw [if_neg h3]
          by_cases h4 : hasDiagBLTR b = true
          · rw [if_pos h4]
            rfl
          · rcases hdet with h | h | h | h
            · exact absurd h h1
            · exact absurd h h2
            · exact absurd h h3
            · exact absurd h h4
  · intro hno h42 hcell
    have hall : ¬(hasHorizontalWin b = true ∨ hasVerticalWin b = true ∨
        hasDiagTLBR b = true ∨ hasDiagBLTR b = true) := by
      intro hd
      obtain ⟨v, hv, hr⟩ := (anyWin_iff b).mp hd
      exact hno v hv hr
    unfold determineWinner
    rw [if_neg (fun h => hall (Or.inl h)),
      if_neg (fun h => hall (Or.inr (Or.inl h))),
      if_neg (fun h => hall (Or.inr (Or.inr (Or.inl h)))),
      if_neg (fun h => hall (Or.inr (Or.inr (Or.inr h)))),
      if_pos ⟨(hasNonEmptyCell_iff b).mpr hcell, h42⟩]
  · intro hno h42
    have hall : ¬(hasHorizontalWin b = true ∨ hasVerticalWin b = true ∨
        hasDiagTLBR b = true ∨ hasDiagBLTR b = true) := by
      intro hd
      obtain ⟨v, hv, hr⟩ := (anyWin_iff b).mp hd
      exact hno v hv hr
    unfold determineWinner
    rw [if_neg (fun h => hall (Or.inl h)),
      if_neg (fun h => hall (Or.inr (Or.inl h))),
      if_neg (fun h => hall (Or.inr (Or.inr (Or.inl h)))),
      if_neg (fun h => hall (Or.inr (Or.inr (Or.inr h)))),
      if_neg (fun hc => h42 hc.2)]

theorem c3_witness :
    fullState.moves.length = 42 ∧
    RunOfCell runBoard Cell.R ∧
    determineWinner fullState runBoard ⟨Piece.Red, 0, 5⟩ =
      { fullState with status := Status.over, winner := some "p1" } :=
  ⟨rfl, by decide,
   (c3_win_tie_priority fullState runBoard ⟨Piece.Red, 0, 5⟩).1 Cell.R
     (by decide) (by decide) (by decide)⟩

end ConnectFour
